import Mathlib

/-!
Shallow embedding of `email2html.py` (message parser, page store, site
renderer and orchestrator) together with theorems settling the spec claims.

Strings are modelled as `List Char`; Python exceptions that a function can
raise are modelled by `Option`/`Except` results.
-/

namespace Email2html

/-- ASCII lowercasing as Python `str.lower` / `re.IGNORECASE` perform it on the
ASCII inputs relevant here: uppercase ASCII letters map to lowercase, every
other character is fixed. -/
def pyLower (c : Char) : Char :=
  if 'A' ≤ c ∧ c ≤ 'Z' then Char.ofNat (c.toNat + 32) else c

/-- Python `s.split(sep, 1)` for a one-character separator, on the branch where
`sep` occurs in `s`: the text before the first `sep` paired with the text after
it. -/
def splitFirst (sep : Char) : List Char → List Char × List Char
  | [] => ([], [])
  | c :: cs =>
    if c = sep then ([], cs)
    else
      let p := splitFirst sep cs
      (c :: p.1, p.2)

/-- Python `s.split(sep)` (no maxsplit) for a one-character separator:
`"a/b".split("/") = ["a", "b"]`, `"a".split("/") = ["a"]`. -/
def splitAll (sep : Char) : List Char → List (List Char)
  | [] => [[]]
  | c :: cs =>
    match splitAll sep cs with
    | [] => [[c]]
    | h :: t => if c = sep then [] :: h :: t else (c :: h) :: t

/-- Python `s.partition(sep)[0]`: the text before the first occurrence of
`sep`, or all of `s` when `sep` does not occur. -/
def beforeFirst (sep : Char) : List Char → List Char
  | [] => []
  | c :: cs => if c = sep then [] else c :: beforeFirst sep cs

/-- `re.match` of the literal pattern `charset="([^"])"` with `re.IGNORECASE`
against the parameter string (`email2html.py` line 90).  `re.match` is anchored
at the start: the string must begin with `charset=` (case-insensitively),
followed by a double quote, exactly one non-quote character (the capture
group), and a closing double quote; anything may follow.  Returns the captured
character. -/
def charsetMatch (l : List Char) : Option Char :=
  if (l.take 8).map pyLower = "charset=".toList then
    match l.drop 8 with
    | q1 :: x :: q2 :: _ =>
      if q1 = '"' ∧ x ≠ '"' ∧ q2 = '"' then some x else none
    | _ => none
  else none

/-- `StdinParser.get_content_type_and_charset` (`email2html.py` lines 87-94):
split the header on the first `;` when one is present, otherwise substitute the
literal pair `("text/plain", "charset=utf-8")`; resolve the charset from the
anchored regex match (defaulting to `utf-8`); split the media type on `/` —
the two-variable tuple unpacking raises `ValueError` unless there are exactly
two parts, modelled as `none`; the content kind is the subtype when the type is
exactly `"text"`, else `"binary"`; both results are lowercased. -/
def get_content_type_and_charset (hdr : List Char) : Option (List Char × List Char) :=
  let p := if ';' ∈ hdr then splitFirst ';' hdr
           else ("text/plain".toList, "charset=utf-8".toList)
  let charset : List Char :=
    match charsetMatch p.2 with
    | some x => [x]
    | none => "utf-8".toList
  match splitAll '/' p.1 with
  | [ty, subty] =>
    some ((if ty = "text".toList then subty else "binary".toList).map pyLower,
          charset.map pyLower)
  | _ => none

/-- The media-type part the derivation works on: the text before the first `;`,
or the literal `text/plain` when the header has no `;`. -/
def mediaPart (hdr : List Char) : List Char :=
  if ';' ∈ hdr then (splitFirst ';' hdr).1 else "text/plain".toList

/-- The parameter part the charset is extracted from: the text after the first
`;`, or the literal `charset=utf-8` when the header has no `;`. -/
def paramPart (hdr : List Char) : List Char :=
  if ';' ∈ hdr then (splitFirst ';' hdr).2 else "charset=utf-8".toList

/-- The charset the derivation resolves: the regex capture when the anchored
pattern matches the parameter part, else the default `utf-8`, lowercased. -/
def resolvedCharset (hdr : List Char) : List Char :=
  (match charsetMatch (paramPart hdr) with
   | some x => [x]
   | none => "utf-8".toList).map pyLower

/-- `StdinParser.is_a_header_line` (`email2html.py` lines 96-98):
`name, _, value = line.partition(":")` followed by `return " " not in name`.
When the line has no colon, `partition` puts the whole line in `name`. -/
def is_a_header_line (line : List Char) : Bool :=
  decide (' ' ∉ beforeFirst ':' line)

/-- The header-line notion the specification describes: the line contains a
colon occurring before any space in the text preceding the colon (so it must
contain a colon at all). -/
def spec_header_line (line : List Char) : Bool :=
  decide (':' ∈ line) && decide (' ' ∉ beforeFirst ':' line)

/-- The date-selection logic of `StdinParser.get_page` (`email2html.py` line
73): `parsedate_to_datetime(msg["Date"]) if msg["Date"] else datetime.now()`.
The `Date` header is `none` when absent; a present header is truthy iff
non-empty.  `parsedate_to_datetime` is the standard-library RFC-5322 parser,
passed as a parameter returning `none` exactly on the inputs where it raises
`ValueError`; propagation of that exception out of `get_page` is the `none`
result. -/
def get_page_date (parsedate_to_datetime : List Char → Option Int)
    (dateHeader : Option (List Char)) (now : Int) : Option Int :=
  match dateHeader with
  | some (c :: cs) => parsedate_to_datetime (c :: cs)
  | _ => some now

/-- The replacement Python `html.escape` (with the default `quote=True`)
performs on one character: `&`, `<`, `>`, `"` and the apostrophe (code 39) are
replaced by their entities, every other character kept. -/
def escape_char (c : Char) : List Char :=
  if c = '&' then "&amp;".toList
  else if c = '<' then "&lt;".toList
  else if c = '>' then "&gt;".toList
  else if c = '"' then "&quot;".toList
  else if c = Char.ofNat 39 then "&#x27;".toList
  else [c]

/-- Python `html.escape(s)` with the default `quote=True`.  `html.escape`
performs five `str.replace` calls with `&` first, which is equivalent to this
single character-wise map. -/
def html_escape : List Char → List Char
  | [] => []
  | c :: cs => escape_char c ++ html_escape cs

/-- Python `s.strip(" ")`: remove leading and trailing space characters. -/
def strip_spaces (l : List Char) : List Char :=
  ((l.dropWhile (· = ' ')).reverse.dropWhile (· = ' ')).reverse

/-- `StaticHtmlSiteBuilder.get_sender` (`email2html.py` lines 150-152):
`sender, _, __ = page.sender.partition("<")` then
`return html.escape(sender).strip(" ")`. -/
def get_sender (sender : List Char) : List Char :=
  strip_spaces (html_escape (beforeFirst '<' sender))

/-- The filename computed by `StaticHtmlSiteBuilder.save_page_to_a_file`
(`email2html.py` line 155): `page.id.replace("@", "").replace(".", "") +
".html"`.  Removing every `@` and then every `.` is filtering both out. -/
def page_filename (id : List Char) : List Char :=
  ((id.filter (· ≠ '@')).filter (· ≠ '.')) ++ ".html".toList

/-- One `<li>` entry of the index as `StaticHtmlSiteBuilder.build_site` formats
it (`email2html.py` lines 135-139), with the page's formatted date passed as a
string (the `strftime` output). -/
def index_entry (filename subject sender dateStr : List Char) : List Char :=
  "\n            <li>\n                <a class=\"title\" href=\"./".toList
    ++ filename
    ++ "\">".toList
    ++ html_escape subject
    ++ "</a> — <span class=\"sender\">".toList
    ++ get_sender sender
    ++ "</span> / <span class=\"date\">".toList
    ++ dateStr
    ++ "</span>\n            </li>\n            ".toList

/-- One row of the `page` table / one `EmailPage` as the store handles it. -/
structure PageRow where
  id : List Char
  message_timestamp : Int
  sender : List Char
  subject : List Char
  content_type : List Char
  headers : List (List Char × List Char)
  body : List Char
deriving DecidableEq, Repr

/-- The sqlite3 exception classes distinguished by `save_page`'s handler. -/
inductive SQLError
  | integrityError
  | operationalError
deriving DecidableEq, Repr

/-- The column list of the `INSERT INTO page(...)` statement in
`SQLitePageRegistry.save_page` (`email2html.py` line 189). -/
def insert_columns : List String :=
  ["id", "message_timestamp", "sender", "subject", "content_type", "body"]

/-- The parameters bound by the `VALUES(...)` clause of that statement
(`email2html.py` lines 190-198). -/
def insert_values : List String :=
  ["id", "message_timestamp", "sender", "subject", "content_type", "headers",
   "body"]

/-- SQLite executing the `INSERT` of `save_page`: a statement that supplies a
different number of values than it names columns makes the engine raise
`sqlite3.OperationalError` before touching the table; otherwise a primary-key
collision on `id` raises `sqlite3.IntegrityError`; otherwise the row is
inserted. -/
def sql_execute_insert (store : List PageRow) (row : PageRow) :
    Except SQLError (List PageRow) :=
  if insert_columns.length ≠ insert_values.length then .error .operationalError
  else if store.any (fun r => r.id == row.id) then .error .integrityError
  else .ok (store ++ [row])

/-- `SQLitePageRegistry.save_page` (`email2html.py` lines 184-201): executes
the `INSERT`, catching only `sqlite3.IntegrityError` (logged at debug level,
store left unchanged); any other exception propagates to the caller. -/
def save_page (store : List PageRow) (page : PageRow) :
    Except SQLError (List PageRow) :=
  match sql_execute_insert store page with
  | .ok s => .ok s
  | .error .integrityError => .ok store
  | .error .operationalError => .error .operationalError

/-- The descending-timestamp ordering of `ORDER BY message_timestamp DESC`. -/
def tsGE (a b : PageRow) : Prop :=
  b.message_timestamp ≤ a.message_timestamp

instance : DecidableRel tsGE :=
  fun a b => inferInstanceAs (Decidable (b.message_timestamp ≤ a.message_timestamp))

instance : IsTotal PageRow tsGE :=
  ⟨fun a b => le_total b.message_timestamp a.message_timestamp⟩

instance : IsTrans PageRow tsGE :=
  ⟨fun _ _ _ h1 h2 => le_trans h2 h1⟩

/-- `SQLitePageRegistry.get_recent_pages` (`email2html.py` lines 203-217):
with the cutoff `oldest_ts = int((now - timedelta(days)).timestamp())`, which
for an integer-seconds clock is `now - days * 86400`, the query
`SELECT * FROM page WHERE message_timestamp > ? ORDER BY message_timestamp
DESC` returns the rows whose timestamp is strictly greater than the cutoff,
ordered by timestamp descending. -/
def get_recent_pages (store : List PageRow) (now days : Int) : List PageRow :=
  let oldest_ts := now - days * 86400
  List.insertionSort tsGE
    (store.filter (fun r => decide (oldest_ts < r.message_timestamp)))

/-- The file content written by `StaticHtmlSiteBuilder.save_page_to_a_file`
(`email2html.py` lines 156-160): the page body followed by an HTML comment
trailer listing all headers as `name: value` lines. -/
def page_file_content (text : List Char)
    (headers : List (List Char × List Char)) : List Char :=
  text ++ "\n\n<!-- Headers:\n".toList
    ++ List.intercalate "\n".toList
         (headers.map (fun h => h.1 ++ ": ".toList ++ h.2))
    ++ "\n\n-->\n".toList

/-- The output directory modelled as a map from filename to file content. -/
def FileSystem : Type :=
  List Char → Option (List Char)

/-- A single `open(path, "w")` write: truncating, so it replaces any previous
content under the same name. -/
def fs_write (fs : FileSystem) (name content : List Char) : FileSystem :=
  fun n => if n = name then some content else fs n

/-- The per-page loop of `StaticHtmlSiteBuilder.build_site` (`email2html.py`
lines 132-140) restricted to its page-file side effects: each page is written
to its sanitized filename, in input order. -/
def build_site_files (fs : FileSystem) : List PageRow → FileSystem
  | [] => fs
  | p :: ps =>
    build_site_files
      (fs_write fs (page_filename p.id) (page_file_content p.body p.headers)) ps

/-- An exception, carried as its message string (Python `str(e)`). -/
abbrev Exc := List Char

/-- `Application.run` (`email2html.py` lines 229-237): the parse-and-save step
is wrapped in `try`/`except Exception` — on failure the message
`"Unable to save page from stdin: " + str(e)` is logged (with the stack trace)
to standard error and the run continues; the query and render steps are
outside the `try` block, so their exceptions propagate.  The model pairs the
run's outcome with the list of error-log lines. -/
def run (get_page : Except Exc PageRow)
    (save_page_step : PageRow → Except Exc Unit)
    (get_recent : Except Exc (List PageRow))
    (build_site : List PageRow → Except Exc Unit) :
    Except Exc Unit × List (List Char) :=
  let ingest : Except Exc Unit := do
    let p ← get_page
    save_page_step p
  let log : List (List Char) :=
    match ingest with
    | .ok _ => []
    | .error e => ["Unable to save page from stdin: ".toList ++ e]
  match get_recent with
  | .error e => (.error e, log)
  | .ok pages => (build_site pages, log)

/-- A concrete page used to instantiate universally quantified statements. -/
def examplePage : PageRow :=
  ⟨"x@y".toList, 0, "s".toList, "t".toList, "plain".toList, [], "b".toList⟩

/-! ### Helper lemmas about the string primitives -/

lemma splitAll_ne_nil (sep : Char) (l : List Char) : splitAll sep l ≠ [] := by
  cases l with
  | nil => simp [splitAll]
  | cons c cs =>
    unfold splitAll
    rcases h : splitAll sep cs with _ | ⟨a, b⟩
    · simp
    · by_cases hc : c = sep <;> simp [hc]

lemma splitAll_of_not_mem (sep : Char) (l : List Char) (h : sep ∉ l) :
    splitAll sep l = [l] := by
  induction l with
  | nil => rfl
  | cons c cs ih =>
    have hc : ¬c = sep := fun e => h (e ▸ List.mem_cons_self c cs)
    have hcs : sep ∉ cs := fun e => h (List.mem_cons_of_mem _ e)
    unfold splitAll
    rw [ih hcs]
    simp [hc]

lemma splitAll_append_cons (sep : Char) (t r : List Char) (h : sep ∉ t) :
    splitAll sep (t ++ sep :: r) = t :: splitAll sep r := by
  induction t with
  | nil =>
    have step : splitAll sep ([] ++ sep :: r) =
        match splitAll sep r with
        | [] => [[sep]]
        | a :: b => if sep = sep then [] :: a :: b else (sep :: a) :: b := rfl
    rw [step]
    rcases hr : splitAll sep r with _ | ⟨a, b⟩
    · exact absurd hr (splitAll_ne_nil sep r)
    · simp
  | cons c cs ih =>
    have hc : ¬c = sep := fun e => h (e ▸ List.mem_cons_self c cs)
    have hcs : sep ∉ cs := fun e => h (List.mem_cons_of_mem _ e)
    have step : splitAll sep (c :: cs ++ sep :: r) =
        match splitAll sep (cs ++ sep :: r) with
        | [] => [[c]]
        | a :: b => if c = sep then [] :: a :: b else (c :: a) :: b := rfl
    rw [step, ih hcs]
    simp [hc]

lemma splitFirst_append_cons (sep : Char) (t r : List Char) (h : sep ∉ t) :
    splitFirst sep (t ++ sep :: r) = (t, r) := by
  induction t with
  | nil =>
    have step : splitFirst sep ([] ++ sep :: r) =
        if sep = sep then ([], r)
        else (sep :: (splitFirst sep r).1, (splitFirst sep r).2) := rfl
    rw [step]
    simp
  | cons c cs ih =>
    have hc : ¬c = sep := fun e => h (e ▸ List.mem_cons_self c cs)
    have hcs : sep ∉ cs := fun e => h (List.mem_cons_of_mem _ e)
    have step : splitFirst sep (c :: cs ++ sep :: r) =
        if c = sep then ([], cs ++ sep :: r)
        else (c :: (splitFirst sep (cs ++ sep :: r)).1,
              (splitFirst sep (cs ++ sep :: r)).2) := rfl
    rw [step, ih hcs]
    simp [hc]

lemma beforeFirst_of_not_mem (sep : Char) (l : List Char) (h : sep ∉ l) :
    beforeFirst sep l = l := by
  induction l with
  | nil => rfl
  | cons c cs ih =>
    have hc : ¬c = sep := fun e => h (e ▸ List.mem_cons_self c cs)
    have hcs : sep ∉ cs := fun e => h (List.mem_cons_of_mem _ e)
    unfold beforeFirst
    simp [hc, ih hcs]

lemma charsetMatch_cons_of_ne (c : Char) (l : List Char) (h : pyLower c ≠ 'c') :
    charsetMatch (c :: l) = none := by
  unfold charsetMatch
  rw [if_neg]
  intro he
  have h1 : (c :: l).take 8 = c :: l.take 7 := rfl
  rw [h1, List.map_cons] at he
  exact h (List.head_eq_of_cons_eq he)

lemma html_escape_append (a b : List Char) :
    html_escape (a ++ b) = html_escape a ++ html_escape b := by
  induction a with
  | nil => rfl
  | cons c cs ih =>
    simp [html_escape, ih, List.append_assoc]

lemma escape_char_no_lt (c : Char) : '<' ∉ escape_char c := by
  unfold escape_char
  by_cases h1 : c = '&'
  · simp [h1]
  by_cases h2 : c = '<'
  · simp [h1, h2]
  by_cases h3 : c = '>'
  · simp [h1, h2, h3]
  by_cases h4 : c = '"'
  · simp [h1, h2, h3, h4]
  by_cases h5 : c = Char.ofNat 39
  · simp [h1, h2, h3, h4, h5]
  · rw [if_neg h1, if_neg h2, if_neg h3, if_neg h4, if_neg h5]
    simp only [List.mem_singleton]
    exact fun hh => h2 hh.symm

lemma html_escape_no_lt (l : List Char) : '<' ∉ html_escape l := by
  induction l with
  | nil => simp [html_escape]
  | cons c cs ih =>
    unfold html_escape
    rw [List.mem_append]
    rintro (h | h)
    · exact escape_char_no_lt c h
    · exact ih h

lemma strip_spaces_subset (l : List Char) : ∀ c, c ∈ strip_spaces l → c ∈ l := by
  intro c hc
  unfold strip_spaces at hc
  rw [List.mem_reverse] at hc
  have h1 : c ∈ (l.dropWhile (· = ' ')).reverse :=
    (List.dropWhile_sublist _).mem hc
  rw [List.mem_reverse] at h1
  exact (List.dropWhile_sublist _).mem h1

/-! ### The claims -/

/-- Claim C1: the claim states that `save_page` never raises, inserts on a
fresh id and silently discards only duplicate-id writes.  The code contradicts
this intent: the `INSERT` statement names 6 columns but its `VALUES` clause
binds 7 parameters (the `headers` value is supplied but the `headers` column
was omitted from the column list), so sqlite raises `OperationalError` on
every call, which the handler — catching only `IntegrityError` — does not
swallow.  Hence every save, fresh id or not, raises to the caller and inserts
nothing. -/
theorem C1_save_page_always_raises :
    insert_columns.length = 6 ∧ insert_values.length = 7 ∧
    (∀ store page, save_page store page = Except.error SQLError.operationalError) :=
  ⟨rfl, rfl, fun _ _ => rfl⟩

/-- Claim C10 (confirmed): the filename sanitization (drop `@` and `.`, append
`.html`) is not injective — the distinct ids `a.b@c` and `ab@c` share the
filename `abc.html` — and rendering two pages with those ids writes both
bodies to that one file, the later page overwriting the earlier, whose content
differs. -/
theorem C10_filename_collision_overwrites :
    page_filename "a.b@c".toList = page_filename "ab@c".toList ∧
    "a.b@c".toList ≠ "ab@c".toList ∧
    page_file_content "first body".toList [] ≠
      page_file_content "second body".toList [] ∧
    (∀ fs : FileSystem,
      build_site_files fs
          [⟨"a.b@c".toList, 0, [], [], [], [], "first body".toList⟩,
           ⟨"ab@c".toList, 0, [], [], [], [], "second body".toList⟩]
          (page_filename "a.b@c".toList)
        = some (page_file_content "second body".toList [])) := by
  refine ⟨by decide, by decide, by decide, fun fs => ?_⟩
  simp only [build_site_files, fs_write]
  rw [if_pos (by decide)]

/-- Claim C2, counterexample: the derivation is not total and its content-kind
component is not confined to the closed set.  On `"a;b"` the media-type part
`a` has no `/`, so the two-variable tuple unpacking raises `ValueError`
(result `none`); on `"text/csv; x"` it returns kind `csv`, outside
`{html, plain, binary}`. -/
theorem C2_counterexample :
    get_content_type_and_charset "a;b".toList = none ∧
    get_content_type_and_charset "text/csv; x".toList
      = some ("csv".toList, "utf-8".toList) ∧
    "csv".toList ∉ ["html".toList, "plain".toList, "binary".toList] := by
  refine ⟨rfl, rfl, by decide⟩

/-- Claim C3, counterexample: for the header
`"text/html; charset=KOI8"` — of the form `<type>/<subtype>; charset=<X>` —
the derivation returns charset `utf-8`, not the lowercased parameter value
`koi8`: the anchored single-character-capture pattern never matches the
parameter segment, which begins with a space. -/
theorem C3_counterexample :
    get_content_type_and_charset "text/html; charset=KOI8".toList
      = some ("html".toList, "utf-8".toList) ∧
    "utf-8".toList ≠ "koi8".toList := by
  refine ⟨rfl, by decide⟩

/-- Claim C4, counterexample: for the header `"image/png"` — whose type
component differs from `text` — the derivation returns kind `plain`, not
`binary`: a header with no `;` is replaced wholesale by the
`text/plain`/`charset=utf-8` default, discarding its media type. -/
theorem C4_counterexample :
    get_content_type_and_charset "image/png".toList
      = some ("plain".toList, "utf-8".toList) ∧
    "plain".toList ≠ "binary".toList := by
  refine ⟨rfl, by decide⟩

/-- Claim C6, counterexample: an unparseable `Date` header does make the parse
fail.  The guard `parsedate_to_datetime(msg["Date"]) if msg["Date"] else
datetime.now()` tests only presence: with a present header on which the
RFC-5322 parser raises `ValueError` (modelled by the parse function returning
`none` on it), the exception propagates out of `get_page` instead of the
current time being substituted. -/
theorem C6_counterexample :
    get_page_date (fun _ => none) (some "not a date".toList) 0 = none := rfl

/-- Claim C9, counterexample: the header-line test is not the claimed "colon
before any space" criterion.  The line `"hello"` contains no colon — so the
claim classifies it as not a header line — yet `is_a_header_line` returns
`True`, because `partition(":")` puts the whole colon-free line into `name`
and `"hello"` contains no space. -/
theorem C9_counterexample :
    is_a_header_line "hello".toList = true ∧
    spec_header_line "hello".toList = false := by decide

lemma get_content_type_eq (hdr : List Char) :
    get_content_type_and_charset hdr =
      match splitAll '/' (mediaPart hdr) with
      | [ty, subty] =>
        some ((if ty = "text".toList then subty else "binary".toList).map pyLower,
              resolvedCharset hdr)
      | _ => none := by
  by_cases h : ';' ∈ hdr <;>
    simp [get_content_type_and_charset, mediaPart, paramPart, resolvedCharset, h]

/-- Claim C2, amended: the derivation returns without raising exactly when the
media-type part — the text before the first `;`, or the literal `text/plain`
when the header has no `;` — splits on `/` into exactly two components; the
content-kind is then the lowercased subtype when the type component is exactly
`text`, and `binary` otherwise, so it lies in the closed set
`{html, plain, binary}` only when the subtype does; with any other number of
`/`-components the two-variable unpacking raises `ValueError`. -/
theorem C2_amended_totality_and_kind (hdr : List Char) :
    ((get_content_type_and_charset hdr).isSome
      ↔ ∃ t s, splitAll '/' (mediaPart hdr) = [t, s]) ∧
    (∀ t s, splitAll '/' (mediaPart hdr) = [t, s] →
      get_content_type_and_charset hdr
        = some ((if t = "text".toList then s else "binary".toList).map pyLower,
                resolvedCharset hdr)) := by
  constructor
  · rw [get_content_type_eq]
    rcases hsp : splitAll '/' (mediaPart hdr) with _ | ⟨t, _ | ⟨s, _ | ⟨u, rest⟩⟩⟩ <;>
      simp [hsp]
  · intro t s hsp
    rw [get_content_type_eq, hsp]

theorem C2_amended_witness :
    get_content_type_and_charset "text/csv; x".toList
      = some ((if "text".toList = "text".toList then "csv".toList
               else "binary".toList).map pyLower,
              resolvedCharset "text/csv; x".toList) :=
  (C2_amended_totality_and_kind "text/csv; x".toList).2 "text".toList "csv".toList
    (by decide)

/-- Claim C3, amended: for every content-type header of the form
`"text/<subtype>; charset=<X>"` (subtype free of `/` and `;`), the derivation
returns the lowercased subtype paired with the constant `utf-8`: the charset
parameter value `X` is ignored, because the anchored pattern
`charset="([^"])"` demands a quoted single character at the very start of the
parameter segment, which begins with a space.  In particular
`"text/plain; charset=UTF-8"` yields `("plain", "utf-8")` as the claim's
example states. -/
theorem C3_amended_charset_ignored (sub X : List Char)
    (h1 : '/' ∉ sub) (h2 : ';' ∉ sub) :
    get_content_type_and_charset
        ("text/".toList ++ sub ++ "; charset=".toList ++ X)
      = some (sub.map pyLower, "utf-8".toList) := by
  have e : "; charset=".toList = ';' :: " charset=".toList := rfl
  rw [e, List.append_assoc, List.cons_append]
  have hts : ';' ∉ "text/".toList ++ sub := by
    rw [List.mem_append]
    rintro (hmem | hmem)
    · exact absurd hmem (by decide)
    · exact h2 hmem
  have hsf := splitFirst_append_cons ';' ("text/".toList ++ sub)
    (" charset=".toList ++ X) hts
  have hmem : ';' ∈ ("text/".toList ++ sub) ++ ';' :: (" charset=".toList ++ X) :=
    List.mem_append.mpr (Or.inr (List.mem_cons_self _ _))
  have hcm : charsetMatch (" charset=".toList ++ X) = none := by
    have e2 : " charset=".toList ++ X = ' ' :: ("charset=".toList ++ X) := rfl
    rw [e2]
    exact charsetMatch_cons_of_ne ' ' _ (by decide)
  have hsa : splitAll '/' ("text/".toList ++ sub) = ["text".toList, sub] := by
    have e3 : "text/".toList ++ sub = "text".toList ++ '/' :: sub := rfl
    rw [e3, splitAll_append_cons '/' _ _ (by decide),
      splitAll_of_not_mem '/' sub h1]
  have hu : "utf-8".toList.map pyLower = "utf-8".toList := by decide
  simp only [get_content_type_and_charset, if_pos hmem, hsf, hcm, hsa, hu]
  simp

theorem C3_amended_witness :
    get_content_type_and_charset "text/plain; charset=UTF-8".toList
      = some ("plain".toList, "utf-8".toList) := by
  have h := C3_amended_charset_ignored "plain".toList "UTF-8".toList
    (by decide) (by decide)
  have e1 : "text/".toList ++ "plain".toList ++ "; charset=".toList
      ++ "UTF-8".toList = "text/plain; charset=UTF-8".toList := by decide
  have e2 : "plain".toList.map pyLower = "plain".toList := by decide
  rw [e1, e2] at h
  exact h

/-- Claim C4, amended: the type-to-kind rule holds only for headers containing
a `;`: for a header `<type>/<subtype>;<params>` (type and subtype free of `/`
and `;`) the kind is the lowercased subtype when the type is exactly `text`
and `binary` otherwise; but a header without any `;` — such as `image/png` —
is replaced wholesale by the `text/plain`/`charset=utf-8` default, so its
media type is discarded and the result is always `("plain", "utf-8")`. -/
theorem C4_amended_kind_rule (ty sub X : List Char)
    (h1 : '/' ∉ ty) (h2 : '/' ∉ sub) (h3 : ';' ∉ ty) (h4 : ';' ∉ sub) :
    get_content_type_and_charset (ty ++ '/' :: sub ++ ';' :: X)
      = some ((if ty = "text".toList then sub else "binary".toList).map pyLower,
              resolvedCharset (ty ++ '/' :: sub ++ ';' :: X)) ∧
    (∀ hdr : List Char, ';' ∉ hdr →
      get_content_type_and_charset hdr
        = some ("plain".toList, "utf-8".toList)) := by
  constructor
  · have e : ty ++ '/' :: sub ++ ';' :: X = (ty ++ '/' :: sub) ++ ';' :: X := by
      rw [List.append_assoc]
    rw [e]
    have hts : ';' ∉ ty ++ '/' :: sub := by
      rw [List.mem_append]
      rintro (hmem | hmem)
      · exact h3 hmem
      · rcases List.mem_cons.mp hmem with hmem | hmem
        · exact absurd hmem (by decide)
        · exact h4 hmem
    have hsf := splitFirst_append_cons ';' (ty ++ '/' :: sub) X hts
    have hmem : ';' ∈ (ty ++ '/' :: sub) ++ ';' :: X :=
      List.mem_append.mpr (Or.inr (List.mem_cons_self _ _))
    have hsa : splitAll '/' (ty ++ '/' :: sub) = [ty, sub] := by
      rw [splitAll_append_cons '/' _ _ h1, splitAll_of_not_mem '/' sub h2]
    simp only [get_content_type_and_charset, resolvedCharset, paramPart,
      if_pos hmem, hsf, hsa]
  · intro hdr h
    simp only [get_content_type_and_charset, if_neg h]
    rfl

theorem C4_amended_witness :
    get_content_type_and_charset ("image".toList ++ '/' :: "png".toList
        ++ ';' :: " charset=utf-8".toList)
      = some ((if "image".toList = "text".toList then "png".toList
               else "binary".toList).map pyLower,
              resolvedCharset ("image".toList ++ '/' :: "png".toList
                ++ ';' :: " charset=utf-8".toList)) ∧
    get_content_type_and_charset "image/png".toList
      = some ("plain".toList, "utf-8".toList) := by
  have h := C4_amended_kind_rule "image".toList "png".toList
    " charset=utf-8".toList (by decide) (by decide) (by decide) (by decide)
  exact ⟨h.1, h.2 "image/png".toList (by decide)⟩

/-- Claim C5 (confirmed): `get_recent_pages` returns exactly the stored rows
whose timestamp is strictly greater than `now - days` (in seconds) — a row
exactly at the boundary is excluded by the strict `>` — as a permutation of
the filtered store, ordered by timestamp descending. -/
theorem C5_get_recent_window_and_order (store : List PageRow) (now days : Int) :
    (∀ r, r ∈ get_recent_pages store now days ↔
      r ∈ store ∧ now - days * 86400 < r.message_timestamp) ∧
    (get_recent_pages store now days).Perm
      (store.filter (fun r => decide (now - days * 86400 < r.message_timestamp))) ∧
    List.Sorted tsGE (get_recent_pages store now days) := by
  refine ⟨?_, ?_, ?_⟩
  · intro r
    unfold get_recent_pages
    rw [List.mem_insertionSort, List.mem_filter]
    simp
  · exact List.perm_insertionSort tsGE _
  · exact List.sorted_insertionSort tsGE _

/-- Claim C7 (confirmed): the outcome of `run` is always that of querying the
store and rendering — an exception in the parse-or-save step is caught, logged
as `"Unable to save page from stdin: " + str(e)`, and does not prevent the
query-and-render phase — while an exception raised by the render step is not
caught and becomes the outcome of `run`. -/
theorem C7_run_catch_and_propagate
    (gp : Except Exc PageRow) (sp : PageRow → Except Exc Unit)
    (gr : Except Exc (List PageRow)) (b : List PageRow → Except Exc Unit) :
    ((run gp sp gr b).1 = (do let pages ← gr; b pages)) ∧
    (∀ e, (do let p ← gp; sp p : Except Exc Unit) = Except.error e →
      (run gp sp gr b).2 = ["Unable to save page from stdin: ".toList ++ e]) ∧
    (∀ pages e, gr = Except.ok pages → b pages = Except.error e →
      (run gp sp gr b).1 = Except.error e) := by
  refine ⟨?_, ?_, ?_⟩
  · cases gr <;> rfl
  · intro e he
    cases gr <;> simp [run, he]
  · intro pages e hgr hb
    rw [hgr]
    simp [run, hb]

theorem C7_run_witness :
    (run (Except.error "boom".toList) (fun _ => Except.ok ())
        (Except.ok ([] : List PageRow)) (fun _ => Except.ok ())).2
      = ["Unable to save page from stdin: ".toList ++ "boom".toList] ∧
    (run (Except.ok examplePage) (fun _ => Except.ok ())
        (Except.ok ([] : List PageRow)) (fun _ => Except.error "render".toList)).1
      = Except.error "render".toList := by
  constructor
  · exact (C7_run_catch_and_propagate (Except.error "boom".toList)
      (fun _ => Except.ok ()) (Except.ok ([] : List PageRow))
      (fun _ => Except.ok ())).2.1 "boom".toList rfl
  · exact (C7_run_catch_and_propagate (Except.ok examplePage)
      (fun _ => Except.ok ()) (Except.ok ([] : List PageRow))
      (fun _ => Except.error "render".toList)).2.2 [] "render".toList rfl rfl

/-- Claim C8 (confirmed): each index entry contains the record's subject
HTML-escaped — a subject containing `<script>` appears with that occurrence
escaped to `&lt;script&gt;` and the escaped subject contains no `<` at all, so
it cannot be markup — and contains the sender reduced to the portion before
any `<`, HTML-escaped and stripped of surrounding spaces (`get_sender`), which
likewise contains no `<`. -/
theorem C8_index_entry_escapes (filename subject sender dateStr pre post : List Char)
    (h : subject = pre ++ "<script>".toList ++ post) :
    (∃ a b, index_entry filename subject sender dateStr
        = a ++ html_escape subject ++ b) ∧
    html_escape subject
      = html_escape pre ++ "&lt;script&gt;".toList ++ html_escape post ∧
    '<' ∉ html_escape subject ∧
    (∃ a b, index_entry filename subject sender dateStr
        = a ++ strip_spaces (html_escape (beforeFirst '<' sender)) ++ b) ∧
    '<' ∉ strip_spaces (html_escape (beforeFirst '<' sender)) := by
  refine ⟨?_, ?_, html_escape_no_lt subject, ?_, ?_⟩
  · exact ⟨"\n            <li>\n                <a class=\"title\" href=\"./".toList
        ++ filename ++ "\">".toList,
      "</a> — <span class=\"sender\">".toList ++ get_sender sender
        ++ "</span> / <span class=\"date\">".toList ++ dateStr
        ++ "</span>\n            </li>\n            ".toList,
      by simp [index_entry, List.append_assoc]⟩
  · have hs : html_escape "<script>".toList = "&lt;script&gt;".toList := by decide
    rw [h, html_escape_append, html_escape_append, hs]
  · exact ⟨"\n            <li>\n                <a class=\"title\" href=\"./".toList
        ++ filename ++ "\">".toList ++ html_escape subject
        ++ "</a> — <span class=\"sender\">".toList,
      "</span> / <span class=\"date\">".toList ++ dateStr
        ++ "</span>\n            </li>\n            ".toList,
      by simp [index_entry, get_sender, List.append_assoc]⟩
  · intro hmem
    exact html_escape_no_lt _ (strip_spaces_subset _ _ hmem)

theorem C8_witness :
    (∃ a b, index_entry "abc.html".toList
        ("Hi ".toList ++ "<script>".toList ++ "!".toList)
        "Alice <a@x.com>".toList "01 Jan".toList
      = a ++ html_escape ("Hi ".toList ++ "<script>".toList ++ "!".toList) ++ b) ∧
    html_escape ("Hi ".toList ++ "<script>".toList ++ "!".toList)
      = html_escape "Hi ".toList ++ "&lt;script&gt;".toList
        ++ html_escape "!".toList ∧
    '<' ∉ html_escape ("Hi ".toList ++ "<script>".toList ++ "!".toList) ∧
    (∃ a b, index_entry "abc.html".toList
        ("Hi ".toList ++ "<script>".toList ++ "!".toList)
        "Alice <a@x.com>".toList "01 Jan".toList
      = a ++ strip_spaces (html_escape (beforeFirst '<' "Alice <a@x.com>".toList)) ++ b) ∧
    '<' ∉ strip_spaces (html_escape (beforeFirst '<' "Alice <a@x.com>".toList)) :=
  C8_index_entry_escapes "abc.html".toList _ "Alice <a@x.com>".toList
    "01 Jan".toList "Hi ".toList "!".toList rfl

/-- Claim C6, amended: a missing `Date` header (or an empty one, since Python
tests truthiness) makes the record's timestamp the current time without
failing; a nonempty `Date` header is handed to `parsedate_to_datetime`
unconditionally, so when the RFC-5322 parse raises (`none`) the exception
propagates out of `get_page` instead of the current time being substituted. -/
theorem C6_amended_date_fallback (parse : List Char → Option Int) (now : Int) :
    get_page_date parse none now = some now ∧
    get_page_date parse (some []) now = some now ∧
    (∀ c cs, get_page_date parse (some (c :: cs)) now = parse (c :: cs)) :=
  ⟨rfl, rfl, fun _ _ => rfl⟩

/-- Claim C9, amended: a line is classified as a header line iff the text
before its first colon — the whole line when it has no colon — contains no
space.  On lines that do contain a colon this agrees with the claimed
criterion (so the `From ` envelope line is skipped), but a colon-free line is
a header line iff it contains no space at all. -/
theorem C9_amended_header_line (line : List Char) :
    (':' ∈ line → is_a_header_line line = spec_header_line line) ∧
    (':' ∉ line → (is_a_header_line line = true ↔ ' ' ∉ line)) := by
  constructor
  · intro h
    simp [is_a_header_line, spec_header_line, h]
  · intro h
    rw [is_a_header_line, beforeFirst_of_not_mem ':' line h]
    simp

theorem C9_amended_witness :
    (is_a_header_line "Subject: x".toList = spec_header_line "Subject: x".toList) ∧
    (is_a_header_line "hello there".toList = true ↔ ' ' ∉ "hello there".toList) :=
  ⟨(C9_amended_header_line _).1 (by decide),
   (C9_amended_header_line _).2 (by decide)⟩

end Email2html



